import Mathlib

/-
Shallow embedding of the response-handling layer of the ureq HTTP client
(src/response.rs).  Strings and byte streams are modelled as `List Char`
(all inputs of interest are ASCII, where Rust bytes and chars coincide);
machine integers (`u16`, `usize`) are `Nat` with the explicit bounds the
Rust parsing functions enforce; fallible operations return `Except Err`.
-/

namespace Ureq

/-- Error kinds: `BadStatus` is ureq's own error kind; the others model
`std::io::ErrorKind` values used by the code (`UnexpectedEof` appears in
the specification's vocabulary and is included so statements can compare
against it; the code itself never produces it). -/
inductive ErrorKind where
  | BadStatus
  | ConnectionAborted
  | InvalidInput
  | InvalidData
  | UnexpectedEof
  | TimedOut
  deriving DecidableEq, Repr

/-- A unified error value: ureq `Error` and `io::Error` both carry a kind
and a message. -/
structure Err where
  kind : ErrorKind
  msg : String
  deriving DecidableEq, Repr

def isOkE {ε α : Type} : Except ε α → Bool
  | .ok _ => true
  | .error _ => false

/-- Rust `u8::is_ascii` / `str::is_ascii`: code point below 128. -/
def isAscii (c : Char) : Bool := c.toNat < 128

/-- Rust `u8::is_ascii_digit`. -/
def isAsciiDigit (c : Char) : Bool := 48 ≤ c.toNat && c.toNat ≤ 57

/-- ASCII lower-casing of one character (Rust `eq_ignore_ascii_case`
compares lower-cased bytes). -/
def asciiLowerChar (c : Char) : Char :=
  if 65 ≤ c.toNat ∧ c.toNat ≤ 90 then Char.ofNat (c.toNat + 32) else c

/-- Rust `str::eq_ignore_ascii_case`. -/
def eqIgnoreAsciiCase (a b : List Char) : Bool :=
  a.map asciiLowerChar == b.map asciiLowerChar

/-- ASCII whitespace test; models Rust `char::is_whitespace` on the ASCII
inputs this layer deals with. -/
def isAsciiWhitespace (c : Char) : Bool :=
  c == ' ' || c == '\t' || c == '\n' || c == '\r'

/-- Rust `str::trim` (restricted to ASCII whitespace). -/
def trimAscii (l : List Char) : List Char :=
  ((l.dropWhile isAsciiWhitespace).reverse.dropWhile isAsciiWhitespace).reverse

/-- Split a character list at the first occurrence of `sep`, as Rust
`str::find` followed by slicing: returns the part before and after the
separator, or `none` when the separator is absent. -/
def splitAtFirst (sep : Char) : List Char → Option (List Char × List Char)
  | [] => none
  | c :: cs =>
    if c = sep then some ([], cs)
    else (splitAtFirst sep cs).map (fun p => (c :: p.1, p.2))

/-- Accumulate decimal digits, as Rust integer `FromStr` does after the
optional sign: fails on the first non-digit. -/
def parseDigitsGo : Nat → List Char → Option Nat
  | acc, [] => some acc
  | acc, c :: cs =>
    if isAsciiDigit c then parseDigitsGo (acc * 10 + (c.toNat - 48)) cs
    else none

/-- Digit-string parser: at least one digit, all digits. -/
def parseDigits : List Char → Option Nat
  | [] => none
  | l => parseDigitsGo 0 l

/-- Drop one leading `'+'` sign, as Rust integer `FromStr` does. -/
def stripLeadingPlus : List Char → List Char
  | [] => []
  | c :: cs => if c = '+' then cs else c :: cs

/-- Rust `FromStr` for unsigned integers: an optional leading `'+'`, then
one or more ASCII digits, rejecting values at or above `bound` (the
overflow check). -/
def parseUIntBounded (bound : Nat) (s : List Char) : Option Nat :=
  (parseDigits (stripLeadingPlus s)).bind
    (fun v => if v < bound then some v else none)

/-- `str::parse::<u16>()`. -/
def parseU16 (s : List Char) : Option Nat := parseUIntBounded 65536 s

/-- `str::parse::<usize>()` (64-bit platform). -/
def parseUsize (s : List Char) : Option Nat := parseUIntBounded (2 ^ 64) s

/-- One decimal digit as a character. -/
def digitChar (d : Nat) : Char :=
  match d with
  | 0 => '0' | 1 => '1' | 2 => '2' | 3 => '3' | 4 => '4'
  | 5 => '5' | 6 => '6' | 7 => '7' | 8 => '8' | 9 => '9'
  | _ => '*'

/-- Fuel-driven decimal formatting loop (least significant digit first,
prepended to `acc`); fuel `n + 1` always suffices. -/
def natToDecimalGo : Nat → Nat → List Char → List Char
  | 0, _, acc => acc
  | fuel + 1, n, acc =>
    let d := digitChar (n % 10)
    if n < 10 then d :: acc else natToDecimalGo fuel (n / 10) (d :: acc)

/-- Modelled from the Rust standard library: `Display` for unsigned
integers — plain decimal, no sign, no padding (`format!` of a `u16`). -/
def natToDecimal (n : Nat) : List Char := natToDecimalGo (n + 1) n []

/-- `index into status_line where we split: HTTP/1.1 200 OK` -/
structure ResponseStatusIndex where
  httpVersion : Nat
  responseCode : Nat
  deriving DecidableEq, Repr

/-- `parse_status_line`: parse a line like `HTTP/1.1 200 OK` (terminator
already stripped) into the two slice offsets and the status code. -/
def parseStatusLine (line : List Char) :
    Except Err (ResponseStatusIndex × Nat) :=
  if !(line.all isAscii) then
    .error ⟨.BadStatus, "Status line not ASCII"⟩
  else
    match splitAtFirst ' ' line with
    | none => .error ⟨.BadStatus, "Wrong number of tokens in status line"⟩
    | some (httpVersion, rest1) =>
      match splitAtFirst ' ' rest1 with
      | none => .error ⟨.BadStatus, "Wrong number of tokens in status line"⟩
      | some (statusStr, _reason) =>
        if !(("HTTP/".toList).isPrefixOf httpVersion) then
          .error ⟨.BadStatus, "HTTP version did not start with HTTP/"⟩
        else if httpVersion.length ≠ 8 then
          .error ⟨.BadStatus, "HTTP version was wrong length"⟩
        else if !(isAsciiDigit (httpVersion.getD 5 ' ')
                  && isAsciiDigit (httpVersion.getD 7 ' ')) then
          .error ⟨.BadStatus, "HTTP version did not match format"⟩
        else if statusStr.length ≠ 3 then
          .error ⟨.BadStatus, "Status code was wrong length"⟩
        else
          match parseU16 statusStr with
          | none => .error ⟨.BadStatus, ""⟩
          | some status =>
            .ok (⟨httpVersion.length, httpVersion.length + statusStr.length⟩,
                 status)

/-- Modelled from the spec: the external header field parser (§6 "Header
parser") produces a `Header` exposing `name()`, `value()` and a
case-insensitive `is_name` predicate; ureq's tokenizer (header.rs) is not
part of this repository slice. -/
structure Header where
  name : List Char
  value : List Char
  deriving DecidableEq, Repr

/-- Modelled from the spec: split one header line at the first colon into
name and value, trimming surrounding whitespace from the value; fails
when no colon is present. -/
def parseHeader (line : List Char) : Option Header :=
  (splitAtFirst ':' line).map (fun p => ⟨p.1, trimAscii p.2⟩)

/-- Case-insensitive header-name match (`Header::is_name`). -/
def Header.isName (h : Header) (n : List Char) : Bool :=
  eqIgnoreAsciiCase h.name n

/-- Request context ("Unit"): supplies `is_head()`, the configured read
timeout (`unit.agent.config.timeout_read`) and the absolute deadline;
only these three observations are used by this layer. -/
structure Unit where
  isHead : Bool
  timeoutRead : Option Nat
  deadline : Option Nat
  deriving DecidableEq, Repr

/-- The external `Stream`: a byte source (its unread content) together
with the outcome the transport would give to `set_read_timeout`
(`none` = success).  Modelled from the spec: stream.rs is external to
this repository slice; only its interface matters here. -/
structure Stream where
  content : List Char
  setReadTimeoutResult : Option Err
  deriving DecidableEq, Repr

/-- `Stream::from_vec` (test byte-vector streams accept any timeout). -/
def Stream.fromVec (l : List Char) : Stream := ⟨l, none⟩

/-- Modelled from the spec: `set_read_timeout` is a transport
configuration call; its observable outcome is recorded in the stream. -/
def Stream.setReadTimeout (s : Stream) (_timeout : Option Nat) : Option Err :=
  s.setReadTimeoutResult

/-- Modelled from the spec: `DeadlineStream` only enforces a wall-clock
budget on reads; it forwards the bytes unchanged, so it is the identity
on the data this embedding observes. -/
def DeadlineStream.new (s : Stream) (_deadline : Option Nat) : Stream := s

/-- The `Response` entity.  A nested inductive because `previous` holds
an optional (shared, immutable) predecessor Response. -/
inductive Response where
  | mk (url : Option String) (statusLine : List Char)
       (index : ResponseStatusIndex) (status : Nat) (headers : List Header)
       (unit : Option Unit) (stream : Stream) (previous : Option Response)

def Response.url : Response → Option String
  | .mk u _ _ _ _ _ _ _ => u

def Response.statusLine : Response → List Char
  | .mk _ sl _ _ _ _ _ _ => sl

def Response.index : Response → ResponseStatusIndex
  | .mk _ _ i _ _ _ _ _ => i

/-- `status()`: the parsed code. -/
def Response.status : Response → Nat
  | .mk _ _ _ s _ _ _ _ => s

def Response.headers : Response → List Header
  | .mk _ _ _ _ hs _ _ _ => hs

def Response.unit : Response → Option Unit
  | .mk _ _ _ _ _ u _ _ => u

def Response.stream : Response → Stream
  | .mk _ _ _ _ _ _ st _ => st

def Response.previous : Response → Option Response
  | .mk _ _ _ _ _ _ _ p => p

/-- `http_version()`: slice `status_line[0..index.http_version]`. -/
def Response.httpVersion (r : Response) : List Char :=
  r.statusLine.take r.index.httpVersion

/-- `status_text()`: slice `status_line[index.response_code + 1..]`,
trimmed. -/
def Response.statusText (r : Response) : List Char :=
  trimAscii (r.statusLine.drop (r.index.responseCode + 1))

/-- `header(name)`: first header whose name matches case-insensitively. -/
def Response.header (r : Response) (name : List Char) : Option (List Char) :=
  (r.headers.find? (fun h => h.isName name)).map Header.value

/-- `has(name)`. -/
def Response.hasHeader (r : Response) (name : List Char) : Bool :=
  (r.header name).isSome

/-- `content_type()`: the part of `Content-Type` before the first `;`,
default `text/plain`. -/
def Response.contentType (r : Response) : List Char :=
  match r.header ("content-type".toList) with
  | none => "text/plain".toList
  | some h =>
    match splitAtFirst ';' h with
    | some p => p.1
    | none => h

/-- `charset_from_content_type`: the text after the first `=` that
follows the first `;`, trimmed; default `utf-8`. -/
def charsetFromContentType (header : Option (List Char)) : List Char :=
  match header with
  | none => "utf-8".toList
  | some h =>
    match splitAtFirst ';' h with
    | none => "utf-8".toList
    | some p =>
      match splitAtFirst '=' p.2 with
      | none => "utf-8".toList
      | some q => trimAscii q.2

/-- `charset()`. -/
def Response.charset (r : Response) : List Char :=
  charsetFromContentType (r.header ("content-type".toList))

/-- `BufRead::read_line`: consume characters up to and including the
first `'\n'` (or up to end of stream); returns the line and the rest. -/
def readLine : List Char → List Char × List Char
  | [] => ([], [])
  | c :: cs =>
    if c = '\n' then ([c], cs)
    else
      let p := readLine cs
      (c :: p.1, p.2)

/-- Does the list end with CR LF? (Rust `s.ends_with("\r\n")`.) -/
def endsWithCRLF (l : List Char) : Bool :=
  match l.reverse with
  | '\n' :: '\r' :: _ => true
  | _ => false

/-- `read_next_line`: an empty read is `ConnectionAborted` ("Unexpected
EOF"); a line not ending in CR LF is `InvalidInput`; otherwise the line
with the two terminator characters popped. -/
def readNextLine (s : List Char) : Except Err (List Char × List Char) :=
  if (readLine s).1 = [] then
    .error ⟨.ConnectionAborted, "Unexpected EOF"⟩
  else if !(endsWithCRLF (readLine s).1) then
    .error ⟨.InvalidInput,
            "Header field didn't end with \\r: " ++ String.mk (readLine s).1⟩
  else
    .ok ((readLine s).1.dropLast.dropLast, (readLine s).2)

/-- The header-block loop of `do_from_stream`: read lines until an empty
one; lines the header parser rejects are skipped.  Fuel-driven; fuel
`s.length + 1` always suffices because each accepted line consumes at
least two characters (the dead fuel-0 branch returns an error, never a
success). -/
def readHeadersGo : Nat → List Char → Except Err (List Header × List Char)
  | 0, _ => .error ⟨.InvalidInput, "header loop fuel exhausted"⟩
  | fuel + 1, s =>
    match readNextLine s with
    | .error e => .error e
    | .ok (line, rest) =>
      if line = [] then .ok ([], rest)
      else
        match parseHeader line with
        | some h =>
          match readHeadersGo fuel rest with
          | .error e => .error e
          | .ok (hs, r2) => .ok (h :: hs, r2)
        | none => readHeadersGo fuel rest

/-- `Response::do_from_stream`: status line, then headers until the blank
line; the remaining stream content becomes the response's body stream. -/
def doFromStream (st : Stream) (unit : Option Unit) : Except Err Response :=
  match readNextLine (DeadlineStream.new st (unit.bind Unit.deadline)).content with
  | .error e => .error e
  | .ok (statusLine, rest) =>
    match parseStatusLine statusLine with
    | .error e => .error e
    | .ok (index, status) =>
      match readHeadersGo (rest.length + 1) rest with
      | .error e => .error e
      | .ok (headers, rest2) =>
        .ok (Response.mk none statusLine index status headers unit
              ⟨rest2, st.setReadTimeoutResult⟩ none)

/-- `FromStr` for `Response`: parse from a byte vector stream. -/
def parseResponse (s : String) : Except Err Response :=
  doFromStream (Stream.fromVec s.toList) none

/-- `Response::new(status, status_text, body)`: format
`HTTP/1.1 <status> <status_text>\r\n\r\n<body>\n` and parse it. -/
def Response.new (status : Nat) (statusText body : String) :
    Except Err Response :=
  doFromStream
    (Stream.fromVec (("HTTP/1.1 ".toList) ++ natToDecimal status ++ [' ']
      ++ statusText.toList ++ ("\r\n\r\n".toList) ++ body.toList ++ ['\n']))
    none

/-- `LimitedRead`: wraps a stream, enforcing a Content-Length limit.  The
wrapped stream is its remaining byte content (empty = it would report
clean end-of-data). -/
structure LimitedRead where
  source : List Char
  limit : Nat
  position : Nat
  deriving DecidableEq, Repr

/-- `LimitedRead::new`. -/
def LimitedRead.new (source : List Char) (limit : Nat) : LimitedRead :=
  ⟨source, limit, 0⟩

/-- `LimitedRead::read` with a buffer of `bufSize` bytes: delivers at
most `min(bufSize, limit - position)` bytes; a clean end-of-data from the
wrapped stream while bytes remain owed is an `InvalidData` error. -/
def LimitedRead.read (lr : LimitedRead) (bufSize : Nat) :
    Except Err (List Char × LimitedRead) :=
  let left := lr.limit - lr.position
  if left = 0 then .ok ([], lr)
  else
    let k := if left < bufSize then left else bufSize
    let chunk := lr.source.take k
    if chunk.length = 0 then
      .error ⟨.InvalidData, "response body closed before all bytes were read"⟩
    else
      .ok (chunk, ⟨lr.source.drop k, lr.limit, lr.position + chunk.length⟩)

/-- `Read::read_to_end` on a `LimitedRead`: iterate reads until a read
returns zero bytes.  Fuel-driven; fuel `limit - position + 1` suffices
because every successful read delivers at least one byte. -/
def limitedReadToEndGo : Nat → LimitedRead → Nat → Except Err (List Char)
  | 0, _, _ => .error ⟨.InvalidData, "read loop fuel exhausted"⟩
  | fuel + 1, lr, bufSize =>
    match lr.read bufSize with
    | .error e => .error e
    | .ok ([], _) => .ok []
    | .ok (c :: cs, lr2) =>
      match limitedReadToEndGo fuel lr2 bufSize with
      | .error e => .error e
      | .ok rest => .ok ((c :: cs) ++ rest)

def LimitedRead.readToEnd (lr : LimitedRead) (bufSize : Nat) :
    Except Err (List Char) :=
  limitedReadToEndGo (lr.limit - lr.position + 1) lr bufSize

/-- One hexadecimal digit. -/
def hexDigitVal (c : Char) : Option Nat :=
  if 48 ≤ c.toNat ∧ c.toNat ≤ 57 then some (c.toNat - 48)
  else if 97 ≤ c.toNat ∧ c.toNat ≤ 102 then some (c.toNat - 87)
  else if 65 ≤ c.toNat ∧ c.toNat ≤ 70 then some (c.toNat - 55)
  else none

def parseHexGo : Nat → List Char → Option Nat
  | acc, [] => some acc
  | acc, c :: cs =>
    match hexDigitVal c with
    | some d => parseHexGo (acc * 16 + d) cs
    | none => none

/-- Modelled from the spec: the external chunked decoder (§6) consumes a
hexadecimal chunk-size line, that many bytes, and a CR LF terminator, per
RFC 7230 chunked framing, until the zero-size chunk. -/
def chunkedDecodeGo : Nat → List Char → Except Err (List Char)
  | 0, _ => .error ⟨.InvalidData, "chunk loop fuel exhausted"⟩
  | fuel + 1, s =>
    match readNextLine s with
    | .error e => .error e
    | .ok (sizeLine, rest) =>
      match parseHexGo 0 sizeLine with
      | none => .error ⟨.InvalidData, "invalid chunk size"⟩
      | some 0 => .ok []
      | some (n + 1) =>
        let chunk := rest.take (n + 1)
        if chunk.length ≠ n + 1 then
          .error ⟨.InvalidData, "chunk body truncated"⟩
        else
          match rest.drop (n + 1) with
          | '\r' :: '\n' :: rest2 =>
            match chunkedDecodeGo fuel rest2 with
            | .error e => .error e
            | .ok tail => .ok (chunk ++ tail)
          | _ => .error ⟨.InvalidData, "chunk missing terminator"⟩

def chunkedDecode (s : List Char) : Except Err (List Char) :=
  chunkedDecodeGo (s.length + 1) s

/-- The polymorphic body reader `into_reader` returns, as a sum type:
the deferred-error reader, the pool-wrapped chunked decoder, the
pool-wrapped bounded reader, or the bare (read-until-close) stream. -/
inductive BodyReader where
  | errorReader (e : Err)
  | poolChunked (unit : Option Unit) (content : List Char)
  | poolLimited (unit : Option Unit) (lr : LimitedRead)
  | plain (content : List Char)
  deriving DecidableEq, Repr

def BodyReader.isPlain : BodyReader → Bool
  | .plain _ => true
  | _ => false

def BodyReader.isChunkedFraming : BodyReader → Bool
  | .poolChunked _ _ => true
  | _ => false

def BodyReader.isLimitedFraming : BodyReader → Bool
  | .poolLimited _ _ => true
  | _ => false

/-- Is the reader wrapped in `PoolReturnRead` (eligible for returning the
connection to the pool)? -/
def BodyReader.isPoolWrapped : BodyReader → Bool
  | .poolChunked _ _ => true
  | .poolLimited _ _ => true
  | _ => false

/-- Is the reader the zero-length bounded reader? -/
def BodyReader.isLimitedZero : BodyReader → Bool
  | .poolLimited _ lr => lr.limit == 0
  | _ => false

/-- `is_http10` in `into_reader`. -/
def Response.isHttp10 (r : Response) : Bool :=
  eqIgnoreAsciiCase r.httpVersion ("HTTP/1.0".toList)

/-- `is_close` in `into_reader`. -/
def Response.isClose (r : Response) : Bool :=
  ((r.header ("connection".toList)).map
    (fun c => eqIgnoreAsciiCase c ("close".toList))).getD false

/-- `is_head` in `into_reader`. -/
def Response.isHeadReq (r : Response) : Bool :=
  (r.unit.map Unit.isHead).getD false

/-- `has_no_body`: HEAD request, or status 204 or 304. -/
def Response.hasNoBody (r : Response) : Bool :=
  r.isHeadReq || (r.status == 204 || r.status == 304)

/-- `is_chunked`: a Transfer-Encoding header with any non-empty value. -/
def Response.isChunkedTE (r : Response) : Bool :=
  ((r.header ("transfer-encoding".toList)).map
    (fun enc => !(enc.isEmpty))).getD false

/-- `use_chunked = !is_http10 && !has_no_body && is_chunked`. -/
def Response.useChunked (r : Response) : Bool :=
  !r.isHttp10 && !r.hasNoBody && r.isChunkedTE

/-- `limit_bytes`: `None` under HTTP/1.0 or Connection close, else forced
`Some 0` when the response has no body, else the parsed Content-Length. -/
def Response.limitBytes (r : Response) : Option Nat :=
  if r.isHttp10 || r.isClose then none
  else if r.hasNoBody then some 0
  else (r.header ("content-length".toList)).bind parseUsize

/-- The framing match at the end of `into_reader`:
`(use_chunked, limit_bytes)`. -/
def Response.framing (r : Response) : BodyReader :=
  match r.useChunked, r.limitBytes with
  | true, _ =>
    .poolChunked r.unit (DeadlineStream.new r.stream
      (r.unit.bind Unit.deadline)).content
  | false, some len =>
    .poolLimited r.unit (LimitedRead.new (DeadlineStream.new r.stream
      (r.unit.bind Unit.deadline)).content len)
  | false, none =>
    .plain (DeadlineStream.new r.stream (r.unit.bind Unit.deadline)).content

/-- `Response::into_reader`: install the read timeout when a request
context is present (a failure short-circuits into the error reader),
wrap the deadline, then select the framing. -/
def Response.intoReader (r : Response) : BodyReader :=
  match r.unit with
  | some u =>
    match r.stream.setReadTimeout u.timeoutRead with
    | some e => .errorReader e
    | none => r.framing
  | none => r.framing

/-- `Read::read_to_end` on the returned body reader.  The `ErrorReader`
yields a fresh error with the captured kind and message on every read;
the plain stream yields its remaining content. -/
def BodyReader.readToEnd : BodyReader → Except Err (List Char)
  | .errorReader e => .error ⟨e.kind, e.msg⟩
  | .poolChunked _ s => chunkedDecode s
  | .poolLimited _ lr => lr.readToEnd 8192
  | .plain s => .ok s

/-- `Response::into_string`: read the body to the end and decode.  On the
`List Char` model the lossy UTF-8 decoding of ASCII bytes is the
identity. -/
def Response.intoString (r : Response) : Except Err String :=
  (r.intoReader.readToEnd).map String.mk

/-- The lazy backward history iterator (`Hist`). -/
structure Hist where
  response : Option Response

/-- `Hist::new`. -/
def Hist.new (response : Option Response) : Hist := ⟨response⟩

/-- `Iterator::next` for `Hist`: yield the current response and step to
its predecessor. -/
def Hist.next (h : Hist) : Option (Response × Hist) :=
  match h.response with
  | none => none
  | some r => some (r, ⟨r.previous⟩)

/-- The full (finite) sequence a `Hist` yields, starting from an optional
response and following `previous` links. -/
def histListFrom : Option Response → List Response
  | none => []
  | some (.mk u sl i st hs un s prev) =>
    Response.mk u sl i st hs un s prev :: histListFrom prev

def Hist.toList (h : Hist) : List Response := histListFrom h.response

/-- `Response::history()`: starts at `previous`, not at the response
itself. -/
def Response.history (r : Response) : Hist := Hist.new r.previous

/-- Test helper `set_previous`. -/
def Response.setPrevious (r : Response) (p : Response) : Response :=
  match r with
  | .mk u sl i st hs un s _ => .mk u sl i st hs un s (some p)

/-- `timeoutSetupOk r`: installing the read timeout would not fail (no
request context, or the stream accepts the timeout). -/
def timeoutSetupOk (r : Response) : Bool :=
  match r.unit with
  | none => true
  | some u => (r.stream.setReadTimeout u.timeoutRead) == none

/-! ## Lemmas about the numeric parsers -/

theorem parseDigitsGo_lt : ∀ (l : List Char) (acc v : Nat),
    parseDigitsGo acc l = some v → v < (acc + 1) * 10 ^ l.length := by
  intro l
  induction l with
  | nil =>
    intro acc v h
    simp only [parseDigitsGo, Option.some.injEq] at h
    subst h
    simp only [List.length_nil, pow_zero, mul_one]
    exact Nat.lt_succ_self acc
  | cons c cs ih =>
    intro acc v h
    simp only [parseDigitsGo] at h
    by_cases hd : isAsciiDigit c = true
    · rw [if_pos hd] at h
      have hb := ih (acc * 10 + (c.toNat - 48)) v h
      have hd9 : c.toNat - 48 ≤ 9 := by
        simp only [isAsciiDigit, Bool.and_eq_true, decide_eq_true_eq] at hd
        omega
      have hstep : (acc * 10 + (c.toNat - 48) + 1) ≤ (acc + 1) * 10 := by omega
      calc v < (acc * 10 + (c.toNat - 48) + 1) * 10 ^ cs.length := hb
        _ ≤ ((acc + 1) * 10) * 10 ^ cs.length :=
            Nat.mul_le_mul_right _ hstep
        _ = (acc + 1) * 10 ^ (c :: cs).length := by
            simp [List.length_cons, pow_succ]
            ring
    · rw [if_neg hd] at h
      exact absurd h (by simp)

theorem parseDigits_lt (l : List Char) (v : Nat)
    (h : parseDigits l = some v) : v < 10 ^ l.length := by
  cases l with
  | nil => simp [parseDigits] at h
  | cons c cs =>
    have := parseDigitsGo_lt (c :: cs) 0 v (by simpa [parseDigits] using h)
    simpa using this

theorem parseU16_le_999 (t : List Char) (v : Nat) (h3 : t.length = 3)
    (h : parseU16 t = some v) : v ≤ 999 := by
  unfold parseU16 parseUIntBounded at h
  have hlen : (stripLeadingPlus t).length ≤ 3 := by
    cases t with
    | nil => simp [stripLeadingPlus]
    | cons c cs =>
      by_cases hc : c = '+'
      · simp only [stripLeadingPlus, if_pos hc]
        simp only [List.length_cons] at h3
        omega
      · simp only [stripLeadingPlus, if_neg hc]
        omega
  cases hpd : parseDigits (stripLeadingPlus t) with
  | none => rw [hpd] at h; exact absurd h (by simp)
  | some w =>
    rw [hpd] at h
    have hw : w < 10 ^ (stripLeadingPlus t).length :=
      parseDigits_lt _ _ hpd
    have hw3 : w < 1000 := by
      calc w < 10 ^ (stripLeadingPlus t).length := hw
        _ ≤ 10 ^ 3 := Nat.pow_le_pow_right (by norm_num) hlen
        _ = 1000 := by norm_num
    simp only [Option.some_bind] at h
    by_cases hb : w < 65536
    · rw [if_pos hb] at h
      cases h
      omega
    · rw [if_neg hb] at h
      exact absurd h (by simp)

/-! ## Lemmas about the status-line parser and response construction -/

theorem parseStatusLine_status_le (l : List Char) (i : ResponseStatusIndex)
    (s : Nat) (h : parseStatusLine l = .ok (i, s)) : s ≤ 999 := by
  unfold parseStatusLine at h
  split at h
  · exact absurd h (by simp)
  · split at h
    · exact absurd h (by simp)
    · split at h
      · exact absurd h (by simp)
      · split at h
        · exact absurd h (by simp)
        · split at h
          · exact absurd h (by simp)
          · split at h
            · exact absurd h (by simp)
            · split at h
              · exact absurd h (by simp)
              · split at h
                · exact absurd h (by simp)
                · rename_i hne3 v hv
                  simp only [Except.ok.injEq, Prod.mk.injEq] at h
                  obtain ⟨-, rfl⟩ := h
                  exact parseU16_le_999 _ _ (by omega) hv

theorem doFromStream_status_le (st : Stream) (u : Option Unit) (r : Response)
    (h : doFromStream st u = .ok r) : r.status ≤ 999 := by
  unfold doFromStream at h
  split at h
  · exact absurd h (by simp)
  · split at h
    · exact absurd h (by simp)
    · split at h
      · exact absurd h (by simp)
      · simp only [Except.ok.injEq] at h
        subst h
        simp only [Response.status]
        exact parseStatusLine_status_le _ _ _ (by assumption)

/-! ## Claim C3 -/

/-- Claim C3 counterexample: the claim says `parse_status_line` rejects
tokens with a leading sign such as `"+99"` and that every successfully
constructed Response has a 3-digit status in [100, 999].  In fact parsing
`"HTTP/1.1 +99 OK\r\n\r\n"` succeeds and yields status 99, which is
below 100: the u16 parser accepts a leading `'+'`. -/
theorem C3_plus99_accepted :
    (doFromStream (Stream.fromVec ("HTTP/1.1 +99 OK\r\n\r\n".toList)) none).map
        Response.status = .ok 99 ∧ (99 : Nat) < 100 :=
  ⟨rfl, by decide⟩

/-- Claim C3 (amended): every successfully constructed Response has a
status_code of at most 999 (values below 100 are possible, e.g. via a
`"+99"` or `"000"` token); `parse_status_line` accepts the status token
exactly when it is 3 characters parsing as an unsigned 16-bit integer —
3 ASCII digits, or `'+'` followed by 2 digits — and any accepted
3-character token denotes a value at most 999. -/
theorem C3_status_code_bounds :
    (∀ (st : Stream) (u : Option Unit) (r : Response),
        doFromStream st u = .ok r → r.status ≤ 999) ∧
    (∀ (l : List Char) (i : ResponseStatusIndex) (s : Nat),
        parseStatusLine l = .ok (i, s) → s ≤ 999) ∧
    (∀ (t : List Char) (v : Nat),
        t.length = 3 → parseU16 t = some v → v ≤ 999) :=
  ⟨doFromStream_status_le, parseStatusLine_status_le,
   fun t v h3 h => parseU16_le_999 t v h3 h⟩

/-- Witness for C3: the bounds applied at concrete inputs. -/
theorem C3_status_code_bounds_witness :
    (doFromStream (Stream.fromVec ("HTTP/1.1 200 OK\r\n\r\n".toList)) none =
        .ok (Response.mk none ("HTTP/1.1 200 OK".toList) ⟨8, 11⟩ 200 [] none
              ⟨[], none⟩ none) ∧
      (Response.mk none ("HTTP/1.1 200 OK".toList) ⟨8, 11⟩ 200 [] none
        ⟨[], none⟩ none).status ≤ 999) ∧
    (parseStatusLine ("HTTP/1.1 200 OK".toList) = .ok (⟨8, 11⟩, 200) ∧
      (200 : Nat) ≤ 999) ∧
    (("200".toList).length = 3 ∧ parseU16 ("200".toList) = some 200 ∧
      (200 : Nat) ≤ 999) :=
  ⟨⟨rfl, C3_status_code_bounds.1
      (Stream.fromVec ("HTTP/1.1 200 OK\r\n\r\n".toList)) none _ (by rfl)⟩,
   ⟨rfl, C3_status_code_bounds.2.1 ("HTTP/1.1 200 OK".toList) ⟨8, 11⟩ 200 rfl⟩,
   ⟨rfl, rfl, C3_status_code_bounds.2.2 ("200".toList) 200 rfl rfl⟩⟩

/-! ## Claim C5 -/

/-- Claim C5: a bounded reader whose wrapped stream reports clean
end-of-data (empty remaining source) while fewer than `limit` bytes have
been delivered answers the next read with the `InvalidData` error
"response body closed before all bytes were read", never a clean EOF;
and once `limit` bytes have been delivered every read returns 0 bytes,
whatever the wrapped stream still holds — so truncation is always
distinguishable from full delivery. -/
theorem C5_limited_read (lr : LimitedRead) (bufSize : Nat) :
    (lr.source = [] → lr.position < lr.limit →
      lr.read bufSize = .error
        ⟨.InvalidData, "response body closed before all bytes were read"⟩) ∧
    (lr.limit ≤ lr.position → lr.read bufSize = .ok ([], lr)) := by
  constructor
  · intro hsrc hlt
    unfold LimitedRead.read
    have hleft : ¬(lr.limit - lr.position = 0) := by omega
    rw [if_neg hleft]
    simp [hsrc]
  · intro hge
    unfold LimitedRead.read
    have hleft : lr.limit - lr.position = 0 := by omega
    rw [if_pos hleft]

/-- Witness for C5: a truncated source errors; a satisfied limit reads
zero bytes though the source still holds data. -/
theorem C5_limited_read_witness :
    ((⟨[], 5, 2⟩ : LimitedRead).read 10 = .error
        ⟨.InvalidData, "response body closed before all bytes were read"⟩) ∧
    ((⟨['a'], 3, 3⟩ : LimitedRead).read 10 = .ok ([], ⟨['a'], 3, 3⟩)) :=
  ⟨(C5_limited_read ⟨[], 5, 2⟩ 10).1 rfl (by decide),
   (C5_limited_read ⟨['a'], 3, 3⟩ 10).2 (by decide)⟩

/-! ## Claim C6 -/

/-- Claim C6: for a chain R0 (no predecessor) ← R1 ← R2, `history()` on
R2 yields exactly [R1, R0] — starting at the predecessessor, never at R2
itself — `history()` on R0 is empty, and (the iterator being a pure
value over the immutable chain) two calls on the same response yield
identical sequences. -/
theorem C6_history (r0 r1 r2 : Response)
    (h0 : r0.previous = none) (h1 : r1.previous = some r0)
    (h2 : r2.previous = some r1) :
    (r2.history).toList = [r1, r0] ∧ (r0.history).toList = [] ∧
    (r2.history).toList = (r2.history).toList := by
  refine ⟨?_, ?_, rfl⟩
  · show histListFrom r2.previous = [r1, r0]
    rw [h2]
    cases r1 with
    | mk u1 sl1 i1 st1 hs1 un1 s1 prev1 =>
      simp only [Response.previous] at h1
      subst h1
      cases r0 with
      | mk u0 sl0 i0 st0 hs0 un0 s0 prev0 =>
        simp only [Response.previous] at h0
        subst h0
        simp [histListFrom]
  · show histListFrom r0.previous = []
    rw [h0]
    simp [histListFrom]

/-- Witness for C6: a concrete three-response chain. -/
theorem C6_history_witness :
    ((Response.mk none [] ⟨0, 0⟩ 404 [] none ⟨[], none⟩
        (some (Response.mk none [] ⟨0, 0⟩ 302 [] none ⟨[], none⟩
          (some (Response.mk none [] ⟨0, 0⟩ 301 [] none ⟨[], none⟩
            none))))).history).toList =
      [Response.mk none [] ⟨0, 0⟩ 302 [] none ⟨[], none⟩
        (some (Response.mk none [] ⟨0, 0⟩ 301 [] none ⟨[], none⟩ none)),
       Response.mk none [] ⟨0, 0⟩ 301 [] none ⟨[], none⟩ none] ∧
    ((Response.mk none [] ⟨0, 0⟩ 301 [] none ⟨[], none⟩ none).history).toList
      = [] :=
  ⟨(C6_history
      (Response.mk none [] ⟨0, 0⟩ 301 [] none ⟨[], none⟩ none)
      (Response.mk none [] ⟨0, 0⟩ 302 [] none ⟨[], none⟩
        (some (Response.mk none [] ⟨0, 0⟩ 301 [] none ⟨[], none⟩ none)))
      (Response.mk none [] ⟨0, 0⟩ 404 [] none ⟨[], none⟩
        (some (Response.mk none [] ⟨0, 0⟩ 302 [] none ⟨[], none⟩
          (some (Response.mk none [] ⟨0, 0⟩ 301 [] none ⟨[], none⟩ none)))))
      rfl rfl rfl).1,
   (C6_history
      (Response.mk none [] ⟨0, 0⟩ 301 [] none ⟨[], none⟩ none)
      (Response.mk none [] ⟨0, 0⟩ 302 [] none ⟨[], none⟩
        (some (Response.mk none [] ⟨0, 0⟩ 301 [] none ⟨[], none⟩ none)))
      (Response.mk none [] ⟨0, 0⟩ 404 [] none ⟨[], none⟩
        (some (Response.mk none [] ⟨0, 0⟩ 302 [] none ⟨[], none⟩
          (some (Response.mk none [] ⟨0, 0⟩ 301 [] none ⟨[], none⟩ none)))))
      rfl rfl rfl).2.1⟩

/-! ## Claim C7 -/

theorem readLine_fst_ne_nil (s : List Char) (h : s ≠ []) :
    (readLine s).1 ≠ [] := by
  cases s with
  | nil => exact absurd rfl h
  | cons c cs =>
    unfold readLine
    split
    · simp
    · simp

/-- Claim C7 counterexample: the claim says end-of-stream while
expecting a line yields an error of kind `UnexpectedEof`; the code
produces kind `ConnectionAborted` (with message "Unexpected EOF"),
which is a different kind. -/
theorem C7_eof_kind :
    readNextLine [] = .error ⟨.ConnectionAborted, "Unexpected EOF"⟩ ∧
    ErrorKind.ConnectionAborted ≠ ErrorKind.UnexpectedEof :=
  ⟨rfl, by decide⟩

/-- Claim C7 (amended): end-of-stream before any byte of the line is
read yields a transport error of kind `ConnectionAborted` (message
"Unexpected EOF"), not `UnexpectedEof`; a line that does not end with
the canonical CRLF terminator (including a bare LF) yields an
`InvalidInput` error; and every `read_next_line` error is one of those
two transport kinds — never `BadStatus`. -/
theorem C7_read_next_line (s : List Char) :
    (s = [] →
      readNextLine s = .error ⟨.ConnectionAborted, "Unexpected EOF"⟩) ∧
    (s ≠ [] → endsWithCRLF (readLine s).1 = false →
      readNextLine s = .error ⟨.InvalidInput,
        "Header field didn't end with \\r: " ++ String.mk (readLine s).1⟩) ∧
    (∀ e, readNextLine s = .error e →
      e.kind = .ConnectionAborted ∨ e.kind = .InvalidInput) := by
  refine ⟨?_, ?_, ?_⟩
  · intro hs
    subst hs
    rfl
  · intro hs hcrlf
    unfold readNextLine
    rw [if_neg (readLine_fst_ne_nil s hs)]
    rw [hcrlf]
    rfl
  · intro e he
    unfold readNextLine at he
    split at he
    · cases he
      left
      rfl
    · split at he
      · cases he
        right
        rfl
      · exact absurd he (by simp)

/-- Witness for C7: the empty stream and a bare-LF line. -/
theorem C7_read_next_line_witness :
    (readNextLine [] = .error ⟨.ConnectionAborted, "Unexpected EOF"⟩) ∧
    (readNextLine ("abc\n".toList) = .error ⟨.InvalidInput,
      "Header field didn't end with \\r: "
        ++ String.mk (readLine ("abc\n".toList)).1⟩) ∧
    (ErrorKind.ConnectionAborted = ErrorKind.ConnectionAborted ∨
      ErrorKind.ConnectionAborted = ErrorKind.InvalidInput) :=
  ⟨(C7_read_next_line []).1 rfl,
   (C7_read_next_line ("abc\n".toList)).2.1 (by decide) (by decide),
   (C7_read_next_line []).2.2 ⟨.ConnectionAborted, "Unexpected EOF"⟩ rfl⟩

/-! ## Claim C9 -/

/-- Claim C9: when a request context is present and installing the read
timeout on the stream fails, `into_reader` returns the deferred-error
reader: reading it yields an error with the captured kind and message
(it never delivers body bytes), and this reader is never wrapped for
pool return. -/
theorem C9_timeout_error_reader (r : Response) (u : Unit) (e : Err)
    (hu : r.unit = some u) (he : r.stream.setReadTimeoutResult = some e) :
    r.intoReader = .errorReader e ∧
    (r.intoReader).readToEnd = .error ⟨e.kind, e.msg⟩ ∧
    (r.intoReader).isPoolWrapped = false := by
  have h1 : r.intoReader = .errorReader e := by
    unfold Response.intoReader
    rw [hu]
    show (match r.stream.setReadTimeout u.timeoutRead with
          | some e => BodyReader.errorReader e
          | none => r.framing) = _
    unfold Stream.setReadTimeout
    rw [he]
  exact ⟨h1, by rw [h1]; rfl, by rw [h1]; rfl⟩

/-- Witness for C9: a concrete response whose stream rejects the
timeout with a `TimedOut` error. -/
theorem C9_timeout_error_reader_witness :
    ((Response.mk none [] ⟨0, 0⟩ 200 [] (some ⟨false, none, none⟩)
        ⟨"body".toList, some ⟨.TimedOut, "timer unsupported"⟩⟩
        none).intoReader = .errorReader ⟨.TimedOut, "timer unsupported"⟩) ∧
    (((Response.mk none [] ⟨0, 0⟩ 200 [] (some ⟨false, none, none⟩)
        ⟨"body".toList, some ⟨.TimedOut, "timer unsupported"⟩⟩
        none).intoReader).readToEnd =
      .error ⟨.TimedOut, "timer unsupported"⟩) :=
  ⟨(C9_timeout_error_reader
      (Response.mk none [] ⟨0, 0⟩ 200 [] (some ⟨false, none, none⟩)
        ⟨"body".toList, some ⟨.TimedOut, "timer unsupported"⟩⟩ none)
      ⟨false, none, none⟩ ⟨.TimedOut, "timer unsupported"⟩ rfl rfl).1,
   (C9_timeout_error_reader
      (Response.mk none [] ⟨0, 0⟩ 200 [] (some ⟨false, none, none⟩)
        ⟨"body".toList, some ⟨.TimedOut, "timer unsupported"⟩⟩ none)
      ⟨false, none, none⟩ ⟨.TimedOut, "timer unsupported"⟩ rfl rfl).2.1⟩

/-! ## Claim C8 -/

/-- Claim C8: with `Content-Type: application/json; charset=iso-8859-4`
the parsed response yields content_type "application/json" and charset
"iso-8859-4"; with `Content-Type: application/json` (no charset
parameter) the charset defaults to "utf-8"; with no Content-Type header
the content_type defaults to "text/plain". -/
theorem C8_content_type_charset :
    ((parseResponse ("HTTP/1.1 200 OK\r\nContent-Type: application/json; "
          ++ "charset=iso-8859-4\r\n\r\nOK")).map
        (fun r => (r.contentType, r.charset)) =
      .ok ("application/json".toList, "iso-8859-4".toList)) ∧
    ((parseResponse "HTTP/1.1 200 OK\r\nContent-Type: application/json\r\n\r\nOK").map
        Response.charset = .ok ("utf-8".toList)) ∧
    ((parseResponse "HTTP/1.1 200 OK\r\n\r\nOK").map Response.contentType =
      .ok ("text/plain".toList)) :=
  ⟨rfl, rfl, rfl⟩

/-! ## Claim C4 -/

/-- Claim C4 counterexample: the claim says reading the body back gives
exactly "Please log in"; the wire form built by `Response::new` appends
a trailing `\n` to the body, so `into_string` returns
"Please log in\n", a different string. -/
theorem C4_trailing_newline :
    (Response.new 401 "Authorization Required" "Please log in").map
        Response.intoString = .ok (.ok "Please log in\n") ∧
    ("Please log in\n" : String) ≠ "Please log in" :=
  ⟨rfl, by decide⟩

/-- Claim C4 (amended): `Response::new(401, "Authorization Required",
"Please log in")` succeeds; `status()` returns 401 and `status_text()`
returns "Authorization Required", but `into_string` returns
"Please log in\n" — the body followed by the newline the synthetic wire
form appends — not the body alone. -/
theorem C4_new_round_trip :
    (Response.new 401 "Authorization Required" "Please log in").map
        (fun r => (r.status, r.statusText, r.intoString)) =
      .ok (401, "Authorization Required".toList, .ok "Please log in\n") :=
  rfl

/-! ## Claims C1 and C2 -/

/-- When installing the read timeout does not fail, `into_reader`
returns the framing match's reader. -/
theorem intoReader_eq_framing (r : Response) (ht : timeoutSetupOk r = true) :
    r.intoReader = r.framing := by
  unfold Response.intoReader timeoutSetupOk Stream.setReadTimeout at *
  split
  · rename_i u hu
    rw [hu] at ht
    split
    · rename_i e hs
      rw [hs] at ht
      simp at ht
    · rfl
  · rfl

/-- Claim C1 counterexample: the claim says that with `Connection:
close` neither chunked framing nor a pool-return wrapper is used; but a
`Connection: close` response with a `Transfer-Encoding` header (and a
body-bearing status) gets the chunked reader wrapped for pool return —
`use_chunked` never consults `is_close`. -/
theorem C1_close_chunked_pooled :
    (parseResponse ("HTTP/1.1 200 OK\r\nConnection: close\r\n"
        ++ "Transfer-Encoding: chunked\r\n\r\n0\r\n\r\n")).map
      (fun r => (r.intoReader.isChunkedFraming, r.intoReader.isPoolWrapped,
                 r.isClose)) = .ok (true, true, true) :=
  rfl

/-- Claim C1 (amended): for a Response with version HTTP/1.0
(case-insensitive) or a `Connection: close` header, and with read-timeout
installation succeeding: no length signal is trusted (`limit_bytes` is
`None` — no forced zero applies, even for HEAD/204/304, and any
Content-Length is ignored); whenever `use_chunked` is false the reader
is the bare read-until-close stream, never wrapped for pool return; but
when `use_chunked` is true (a non-empty Transfer-Encoding on a non-1.0,
body-bearing response, even with `Connection: close`) the pool-wrapped
chunked reader is returned.  Under HTTP/1.0, `use_chunked` is always
false, so HTTP/1.0 always gets the bare read-until-close reader. -/
theorem C1_read_until_close (r : Response) (ht : timeoutSetupOk r = true) :
    ((r.isHttp10 = true ∨ r.isClose = true) →
      r.limitBytes = none ∧
      (r.useChunked = false →
        r.intoReader = .plain r.stream.content ∧
        (r.intoReader).isPoolWrapped = false) ∧
      (r.useChunked = true →
        r.intoReader = .poolChunked r.unit r.stream.content)) ∧
    (r.isHttp10 = true → r.useChunked = false) := by
  have hif := intoReader_eq_framing r ht
  constructor
  · intro hor
    have hlim : r.limitBytes = none := by
      unfold Response.limitBytes
      have hb : (r.isHttp10 || r.isClose) = true := by
        rcases hor with h | h <;> simp [h]
      rw [if_pos hb]
    refine ⟨hlim, ?_, ?_⟩
    · intro huc
      have hfr : r.framing = .plain r.stream.content := by
        unfold Response.framing
        rw [huc, hlim]
        rfl
      exact ⟨by rw [hif, hfr], by rw [hif, hfr]; rfl⟩
    · intro huc
      rw [hif]
      unfold Response.framing
      rw [huc, hlim]
      rfl
  · intro h10
    unfold Response.useChunked
    rw [h10]
    rfl

/-- Witness for C1: an HTTP/1.0 response (status 200, no headers) gets
the bare read-until-close reader and no pool wrapper. -/
theorem C1_read_until_close_witness :
    (Response.mk none ("HTTP/1.0 200 OK".toList) ⟨8, 11⟩ 200 [] none
        ⟨"hi".toList, none⟩ none).limitBytes = none ∧
    (Response.mk none ("HTTP/1.0 200 OK".toList) ⟨8, 11⟩ 200 [] none
        ⟨"hi".toList, none⟩ none).intoReader = .plain ("hi".toList) ∧
    ((Response.mk none ("HTTP/1.0 200 OK".toList) ⟨8, 11⟩ 200 [] none
        ⟨"hi".toList, none⟩ none).intoReader).isPoolWrapped = false :=
  have h := C1_read_until_close
    (Response.mk none ("HTTP/1.0 200 OK".toList) ⟨8, 11⟩ 200 [] none
      ⟨"hi".toList, none⟩ none) rfl
  ⟨(h.1 (Or.inl rfl)).1, ((h.1 (Or.inl rfl)).2.1 rfl).1,
   ((h.1 (Or.inl rfl)).2.1 rfl).2⟩

/-- Claim C2 counterexample: the claim says HEAD/204/304 forces a
zero-length body for every HTTP version and Connection value; but an
HTTP/1.0 204 response (here with `Content-Length: 3` and three body
bytes available) gets the read-until-close reader, which delivers those
bytes rather than reporting immediate end-of-data. -/
theorem C2_http10_204_not_zero :
    ((parseResponse
        "HTTP/1.0 204 No Content\r\nContent-Length: 3\r\n\r\nabc").map
      (fun r => (r.intoReader, (r.intoReader).readToEnd)) =
      .ok (.plain ("abc".toList), .ok ("abc".toList))) ∧
    ("abc".toList ≠ ([] : List Char)) :=
  ⟨rfl, by decide⟩

/-- Claim C2 (amended): a HEAD/204/304 response is forced to a
zero-length body — the reader reports end-of-data immediately,
regardless of any Content-Length or Transfer-Encoding header — provided
the version is not HTTP/1.0 and no `Connection: close` header is
present (and timeout installation succeeds); under HTTP/1.0 or
`Connection: close` the read-until-close reader is selected instead. -/
theorem C2_forced_zero (r : Response) (ht : timeoutSetupOk r = true)
    (hnb : r.hasNoBody = true) (h10 : r.isHttp10 = false)
    (hcl : r.isClose = false) :
    r.intoReader = .poolLimited r.unit (LimitedRead.new r.stream.content 0) ∧
    (r.intoReader).readToEnd = .ok [] := by
  have hif := intoReader_eq_framing r ht
  have huc : r.useChunked = false := by
    unfold Response.useChunked
    rw [hnb]
    simp
  have hlim : r.limitBytes = some 0 := by
    unfold Response.limitBytes
    rw [h10, hcl]
    simp [hnb]
  have h1 : r.intoReader =
      .poolLimited r.unit (LimitedRead.new r.stream.content 0) := by
    rw [hif]
    unfold Response.framing
    rw [huc, hlim]
    rfl
  exact ⟨h1, by rw [h1]; rfl⟩

/-- Witness for C2: an HTTP/1.1 204 response carrying `Content-Length:
5` and five available body bytes still reads as the empty body. -/
theorem C2_forced_zero_witness :
    (Response.mk none ("HTTP/1.1 204 No Content".toList) ⟨8, 11⟩ 204
        [⟨"Content-Length".toList, "5".toList⟩] none
        ⟨"hello".toList, none⟩ none).intoReader =
      .poolLimited none (LimitedRead.new ("hello".toList) 0) ∧
    ((Response.mk none ("HTTP/1.1 204 No Content".toList) ⟨8, 11⟩ 204
        [⟨"Content-Length".toList, "5".toList⟩] none
        ⟨"hello".toList, none⟩ none).intoReader).readToEnd = .ok [] :=
  C2_forced_zero
    (Response.mk none ("HTTP/1.1 204 No Content".toList) ⟨8, 11⟩ 204
      [⟨"Content-Length".toList, "5".toList⟩] none
      ⟨"hello".toList, none⟩ none) rfl rfl rfl rfl

/-! ## Lemmas towards Claim C10 -/

theorem readLine_append (p s : List Char) (hp : '\n' ∉ p) :
    readLine (p ++ s) = (p ++ (readLine s).1, (readLine s).2) := by
  induction p with
  | nil => simp
  | cons c cs ih =>
    have hc : c ≠ '\n' := fun h => hp (h ▸ List.mem_cons_self c cs)
    have hcs : '\n' ∉ cs := fun h => hp (List.mem_cons_of_mem c h)
    rw [List.cons_append]
    simp only [readLine]
    rw [if_neg hc, ih hcs]
    rfl

theorem splitAtFirst_append (sep : Char) (p s : List Char) (hp : sep ∉ p) :
    splitAtFirst sep (p ++ sep :: s) = some (p, s) := by
  induction p with
  | nil => simp [splitAtFirst]
  | cons c cs ih =>
    have hc : c ≠ sep := fun h => hp (h ▸ List.mem_cons_self c cs)
    have hcs : sep ∉ cs := fun h => hp (List.mem_cons_of_mem c h)
    rw [List.cons_append]
    simp only [splitAtFirst]
    rw [if_neg hc, ih hcs]
    rfl

theorem digitChar_isDigit (d : Nat) (hd : d < 10) :
    isAsciiDigit (digitChar d) = true := by
  interval_cases d <;> decide

theorem natToDecimalGo_digits : ∀ (fuel n : Nat) (acc : List Char),
    (∀ c ∈ acc, isAsciiDigit c = true) →
    ∀ c ∈ natToDecimalGo fuel n acc, isAsciiDigit c = true := by
  intro fuel
  induction fuel with
  | zero => intro n acc hacc c hc; exact hacc c hc
  | succ f ih =>
    intro n acc hacc c hc
    simp only [natToDecimalGo] at hc
    have hdig : isAsciiDigit (digitChar (n % 10)) = true :=
      digitChar_isDigit _ (Nat.mod_lt _ (by norm_num))
    by_cases hn : n < 10
    · rw [if_pos hn] at hc
      rcases List.mem_cons.mp hc with h | h
      · rw [h]; exact hdig
      · exact hacc c h
    · rw [if_neg hn] at hc
      refine ih (n / 10) _ (fun x hx => ?_) c hc
      rcases List.mem_cons.mp hx with h | h
      · rw [h]; exact hdig
      · exact hacc x h

theorem natToDecimal_digits (n : Nat) :
    ∀ c ∈ natToDecimal n, isAsciiDigit c = true :=
  natToDecimalGo_digits (n + 1) n [] (by simp)

theorem natToDecimal_small (n : Nat) (hn : n < 10) :
    natToDecimal n = [digitChar (n % 10)] := by
  unfold natToDecimal natToDecimalGo
  rw [if_pos hn]

theorem natToDecimalGo_eq_append : ∀ (n fuel : Nat) (acc : List Char),
    n < fuel → natToDecimalGo fuel n acc = natToDecimal n ++ acc := by
  intro n
  induction n using Nat.strong_induction_on with
  | _ n ih =>
    intro fuel acc hfuel
    obtain ⟨f, rfl⟩ : ∃ f, fuel = f + 1 := ⟨fuel - 1, by omega⟩
    by_cases hn : n < 10
    · show natToDecimalGo (f + 1) n acc = _
      simp only [natToDecimalGo]
      rw [if_pos hn, natToDecimal_small n hn]
      rfl
    · have hdiv : n / 10 < n := Nat.div_lt_self (by omega) (by norm_num)
      have hstep : ∀ (g : Nat) (a : List Char),
          natToDecimalGo (g + 1) n a
            = natToDecimalGo g (n / 10) (digitChar (n % 10) :: a) := by
        intro g a
        simp only [natToDecimalGo]
        rw [if_neg hn]
      have hcan : natToDecimal n
          = natToDecimal (n / 10) ++ [digitChar (n % 10)] := by
        have h1 : natToDecimal n
            = natToDecimalGo n (n / 10) [digitChar (n % 10)] := hstep n []
        rw [h1, ih (n / 10) hdiv n (digitChar (n % 10) :: []) (by omega)]
      rw [hstep f acc, ih (n / 10) hdiv f (digitChar (n % 10) :: acc) (by omega)]
      rw [hcan, List.append_assoc]
      rfl

theorem natToDecimal_length_step (n : Nat) (hn : ¬ n < 10) :
    (natToDecimal n).length = (natToDecimal (n / 10)).length + 1 := by
  have hdiv : n / 10 < n := Nat.div_lt_self (by omega) (by norm_num)
  have h1 : natToDecimal n = natToDecimalGo n (n / 10) [digitChar (n % 10)] := by
    show natToDecimalGo (n + 1) n [] = _
    simp only [natToDecimalGo]
    rw [if_neg hn]
  rw [h1, natToDecimalGo_eq_append (n / 10) n (digitChar (n % 10) :: []) (by omega)]
  simp

theorem natToDecimal_length_le_two (n : Nat) (hn : n < 100) :
    (natToDecimal n).length ≤ 2 := by
  by_cases h10 : n < 10
  · rw [natToDecimal_small n h10]
    simp
  · rw [natToDecimal_length_step n h10]
    rw [natToDecimal_small (n / 10) (by omega)]
    simp

theorem natToDecimal_length_pos (n : Nat) : 1 ≤ (natToDecimal n).length := by
  by_cases h10 : n < 10
  · rw [natToDecimal_small n h10]
    simp
  · rw [natToDecimal_length_step n h10]
    omega

theorem natToDecimal_length_ge_four (n : Nat) (hn : 999 < n) :
    4 ≤ (natToDecimal n).length := by
  rw [natToDecimal_length_step n (by omega)]
  rw [natToDecimal_length_step (n / 10) (by omega)]
  rw [natToDecimal_length_step (n / 10 / 10) (by omega)]
  have := natToDecimal_length_pos (n / 10 / 10 / 10)
  omega

theorem endsWithCRLF_strip (l : List Char) (h : endsWithCRLF l = true) :
    l = l.dropLast.dropLast ++ ['\r', '\n'] := by
  unfold endsWithCRLF at h
  split at h
  · rename_i w heq
    have hl : l = ('\n' :: '\r' :: w).reverse := by
      rw [← heq, List.reverse_reverse]
    rw [hl]
    simp [List.reverse_cons, List.append_assoc]
  · exact absurd h (by simp)

theorem stripped_decompose (p0 q : List Char) (hq : q ≠ [])
    (h : endsWithCRLF ((p0 ++ [' ']) ++ q) = true) :
    ((p0 ++ [' ']) ++ q).dropLast.dropLast
      = (p0 ++ [' ']) ++ q.dropLast.dropLast := by
  match q, hq with
  | [x], _ =>
    exfalso
    have hstrip := endsWithCRLF_strip _ h
    have hform : p0 ++ [' ', x]
        = ((p0 ++ [' ']) ++ [x]).dropLast.dropLast ++ ['\r', '\n'] := by
      rw [← hstrip]
      simp [List.append_assoc]
    have h2 : [' ', x] = ['\r', '\n'] :=
      List.append_inj_right' hform (by simp)
    injection h2 with h21 _
    exact absurd h21 (by decide)
  | x :: y :: ys, _ =>
    rw [List.dropLast_append_of_ne_nil _ (by simp : (x :: y :: ys) ≠ [])]
    rw [List.dropLast_append_of_ne_nil _
      (by simp [List.dropLast] : (x :: y :: ys).dropLast ≠ [])]

theorem parseStatusLine_badlen (D w : List Char)
    (hsp : ' ' ∉ D) (hDlen : D.length ≠ 3) :
    ∃ e, parseStatusLine ("HTTP/1.1".toList ++ ' ' :: (D ++ ' ' :: w))
      = .error e := by
  by_cases hascii :
      (("HTTP/1.1".toList ++ ' ' :: (D ++ ' ' :: w)).all isAscii) = true
  · have h1 : splitAtFirst ' ' ("HTTP/1.1".toList ++ ' ' :: (D ++ ' ' :: w))
        = some ("HTTP/1.1".toList, D ++ ' ' :: w) :=
      splitAtFirst_append ' ' _ _ (by decide)
    have h2 : splitAtFirst ' ' (D ++ ' ' :: w) = some (D, w) :=
      splitAtFirst_append ' ' _ _ hsp
    refine ⟨⟨.BadStatus, "Status code was wrong length"⟩, ?_⟩
    simp only [parseStatusLine, h1, h2, hascii]
    rw [if_neg (by decide), if_neg (by decide), if_neg (by decide),
        if_neg (by decide), if_pos hDlen]
  · refine ⟨⟨.BadStatus, "Status line not ASCII"⟩, ?_⟩
    have hfalse : (("HTTP/1.1".toList ++ ' ' :: (D ++ ' ' :: w)).all isAscii)
        = false := Bool.eq_false_iff.mpr hascii
    unfold parseStatusLine
    rw [if_pos (by rw [hfalse]; decide)]

theorem doFromStream_error_of_line (st : Stream) (u : Option Unit) (e : Err)
    (h : readNextLine (DeadlineStream.new st (u.bind Unit.deadline)).content
          = .error e) :
    doFromStream st u = .error e := by
  unfold doFromStream
  rw [h]

theorem doFromStream_error_of_status (st : Stream) (u : Option Unit)
    (sl rest : List Char) (e : Err)
    (h1 : readNextLine (DeadlineStream.new st (u.bind Unit.deadline)).content
          = .ok (sl, rest))
    (h2 : parseStatusLine sl = .error e) :
    doFromStream st u = .error e := by
  simp only [doFromStream, h1, h2]

theorem readNextLine_decomp (P tail : List Char) (hPnl : '\n' ∉ P)
    (hPne : P ≠ []) :
    readNextLine (P ++ tail)
      = if endsWithCRLF (P ++ (readLine tail).1) = true then
          .ok ((P ++ (readLine tail).1).dropLast.dropLast, (readLine tail).2)
        else .error ⟨.InvalidInput, "Header field didn't end with \\r: "
          ++ String.mk (P ++ (readLine tail).1)⟩ := by
  unfold readNextLine
  rw [readLine_append P tail hPnl]
  dsimp only
  rw [if_neg (by simp [hPne])]
  by_cases hcr : endsWithCRLF (P ++ (readLine tail).1) = true
  · rw [if_pos hcr, if_neg (by rw [hcr]; decide)]
  · have hf : endsWithCRLF (P ++ (readLine tail).1) = false :=
      Bool.eq_false_iff.mpr hcr
    rw [if_neg hcr, if_pos (by rw [hf]; decide)]

theorem statusLine_reject (D tail : List Char)
    (hDdig : ∀ c ∈ D, isAsciiDigit c = true)
    (hDlen : D.length ≠ 3) (htail : tail ≠ []) :
    isOkE (doFromStream
      (Stream.fromVec (("HTTP/1.1 ".toList ++ D ++ [' ']) ++ tail)) none)
      = false := by
  have hDnl : '\n' ∉ D := fun hm => absurd (hDdig _ hm) (by decide)
  have hDsp : ' ' ∉ D := fun hm => absurd (hDdig _ hm) (by decide)
  have hPnl : '\n' ∉ ("HTTP/1.1 ".toList ++ D ++ [' ']) := by
    intro hm
    rcases List.mem_append.mp hm with hm | hm
    · rcases List.mem_append.mp hm with hm | hm
      · exact absurd hm (by decide)
      · exact hDnl hm
    · exact absurd hm (by decide)
  have hPne : ("HTTP/1.1 ".toList ++ D ++ [' ']) ≠ [] := by simp
  have hrnl := readNextLine_decomp ("HTTP/1.1 ".toList ++ D ++ [' ']) tail
    hPnl hPne
  have hqne : (readLine tail).1 ≠ [] := readLine_fst_ne_nil tail htail
  by_cases hcr : endsWithCRLF (("HTTP/1.1 ".toList ++ D ++ [' '])
      ++ (readLine tail).1) = true
  · rw [if_pos hcr] at hrnl
    have hsd := stripped_decompose ("HTTP/1.1 ".toList ++ D)
      (readLine tail).1 hqne hcr
    rw [hsd] at hrnl
    obtain ⟨e, he⟩ := parseStatusLine_badlen D
      ((readLine tail).1.dropLast.dropLast) hDsp hDlen
    have hps : parseStatusLine (("HTTP/1.1 ".toList ++ D ++ [' '])
        ++ (readLine tail).1.dropLast.dropLast) = .error e := by
      have hsh : ("HTTP/1.1 ".toList ++ D ++ [' '])
          ++ (readLine tail).1.dropLast.dropLast
          = "HTTP/1.1".toList
            ++ ' ' :: (D ++ ' ' :: (readLine tail).1.dropLast.dropLast) := by
        have hlit : "HTTP/1.1 ".toList = "HTTP/1.1".toList ++ [' '] := by
          decide
        rw [hlit]
        simp [List.append_assoc]
      rw [hsh]
      exact he
    rw [doFromStream_error_of_status
      (Stream.fromVec (("HTTP/1.1 ".toList ++ D ++ [' ']) ++ tail)) none
      _ _ e hrnl hps]
    rfl
  · rw [if_neg hcr] at hrnl
    rw [doFromStream_error_of_line
      (Stream.fromVec (("HTTP/1.1 ".toList ++ D ++ [' ']) ++ tail)) none
      _ hrnl]
    rfl

/-! ## Claim C10 -/

/-- Claim C10: for every status value outside [100, 999] — whose decimal
form is not exactly three characters — `Response::new(status, text,
body)` fails for every status text and body, because the formatted
status token fails the exactly-3-characters check of the status-line
parser (or an earlier line/ASCII check fails); so the synthetic
constructor can never produce a Response violating the ≤ 3-digit status
bound, even though it accepts any u16 argument. -/
theorem C10_out_of_range_status (status : Nat) (text body : String)
    (hs : status < 100 ∨ 999 < status) :
    isOkE (Response.new status text body) = false := by
  have hDlen : (natToDecimal status).length ≠ 3 := by
    rcases hs with h | h
    · have := natToDecimal_length_le_two status h
      omega
    · have := natToDecimal_length_ge_four status h
      omega
  have hshape : ("HTTP/1.1 ".toList) ++ natToDecimal status ++ [' ']
      ++ text.toList ++ ("\r\n\r\n".toList) ++ body.toList ++ ['\n']
      = ("HTTP/1.1 ".toList ++ natToDecimal status ++ [' ']) ++
        (text.toList ++ ("\r\n\r\n".toList) ++ body.toList ++ ['\n']) := by
    simp [List.append_assoc]
  unfold Response.new
  rw [hshape]
  exact statusLine_reject (natToDecimal status) _
    (natToDecimal_digits status) hDlen (by simp)

/-- Witness for C10: status 99 (two digits) and status 1000 (four
digits) both make `Response::new` fail. -/
theorem C10_out_of_range_status_witness :
    (((99 : Nat) < 100 ∨ 999 < 99) ∧
      isOkE (Response.new 99 "Gone" "body") = false) ∧
    (((1000 : Nat) < 100 ∨ 999 < 1000) ∧
      isOkE (Response.new 1000 "Gone" "body") = false) :=
  ⟨⟨Or.inl (by decide),
    C10_out_of_range_status 99 "Gone" "body" (Or.inl (by decide))⟩,
   ⟨Or.inr (by decide),
    C10_out_of_range_status 1000 "Gone" "body" (Or.inr (by decide))⟩⟩

end Ureq
